import Mathlib

/-!
Verification of the icon registration and artifact-generation pipeline of the
IconFont compiler (`src/iconFontCompiler.ts`).

The embedding below translates the registry allocators (`getUnique`,
`getUniqueUnicode`), the node collector (`processNode`, and the object-source
branch of `compileIconFontFromSources`), the format orchestrator flag cascade
(`generateIconFont`), the option resolution performed by `generateSVGFont` and
by `compileIconFont`'s attribute parsing (`parseBoolean`, `parseNumber`), and
the stylesheet generator (`generateCSS`).  JavaScript `Set` values are modelled
as lists (membership is all the program observes, plus insertion which is
modelled by consing), JavaScript numbers used as code points are modelled as
`Nat` with `Option Nat` where `NaN`/`undefined` can flow, and the unbounded
`for`/`while` search loops are modelled by a fueled search together with a
pigeonhole proof that the fuel used (`set.length + 1`) always suffices, so the
fueled search computes exactly the value the source's unbounded loop returns.
-/

namespace IconFont

/-! ### Number rendering (JavaScript `Number.prototype.toString(base)`)

The source builds candidate names as `content + "-" + i` (decimal rendering of
the counter) and CSS content escapes as `icon.unicode.toString(16)` (lowercase
hexadecimal).  `toDigitsLE b fuel n` computes the base-`b` digits of `n`,
least significant first, by the usual divide-by-base loop; the fuel argument
makes the recursion structural and `fuel = n` is always enough. -/

def toDigitsLE (b : Nat) : Nat → Nat → List Nat
  | 0, _ => []
  | fuel + 1, n => if n = 0 then [] else n % b :: toDigitsLE b fuel (n / b)

/-- Digits of `n` in base `b`, most significant first, as lowercase characters;
`0` renders as `"0"`.  This is JavaScript `n.toString(b)` for natural `n`. -/
def toBaseString (b n : Nat) : String :=
  if n = 0 then "0" else String.mk (((toDigitsLE b n n).reverse).map Nat.digitChar)

/-- JavaScript decimal rendering of a natural number (string concatenation of
a number, as in `content + "-" + i`). -/
def natToString (n : Nat) : String := toBaseString 10 n

/-- JavaScript `n.toString(16)` as used for the CSS `content` escape. -/
def natToHexString (n : Nat) : String := toBaseString 16 n

/-! ### The fueled linear search shared by both allocators

`getUnique`'s `for (let i = 2; ; i++)` loop and `getUniqueUnicode`'s
`while (set.has(startUnicode)) startUnicode++` loop are both linear scans for
the first admissible value at or above a starting point.  `searchFrom p start
fuel` performs that scan with explicit fuel; the pigeonhole lemma further down
shows that `set.length + 1` fuel always reaches a free value, so the fueled
model returns exactly what the unbounded source loops return. -/

def searchFrom (p : Nat → Prop) [DecidablePred p] : Nat → Nat → Nat
  | start, 0 => start
  | start, fuel + 1 => if p start then start else searchFrom p (start + 1) fuel

/-! ### The Identifier Registry allocators (`getUnique`, `getUniqueUnicode`)

Source, `src/iconFontCompiler.ts` lines 333-356.  Each returns the allocated
value together with the updated set (the source mutates the `Set` in place via
`set.add`). -/

/-- Embeds `getUnique` (lines 333-345): if `content` is taken, probe
`content + "-" + i` for `i = 2, 3, …` until a free string is found; register
and return the result. -/
def getUnique (content : String) (used : List String) : String × List String :=
  if content ∈ used then
    let i := searchFrom (fun i => content ++ "-" ++ natToString i ∉ used) 2 (used.length + 1)
    let newContent := content ++ "-" ++ natToString i
    (newContent, newContent :: used)
  else
    (content, content :: used)

/-- Embeds `getUniqueUnicode` (lines 347-356).  The `isNaN(startUnicode)`
guard is modelled by the candidate being an `Option Nat` (`none` stands for
`NaN`/`undefined`), replaced by the default `0xea01`. -/
def getUniqueUnicode (startUnicode : Option Nat) (used : List Nat) : Nat × List Nat :=
  let s := startUnicode.getD 0xea01
  let u := searchFrom (fun v => v ∉ used) s (used.length + 1)
  (u, u :: used)

/-! ### Data model

`SVGIcon` is the resolved icon record (the source attaches these fields onto
the parsed node / content string); `SVGNode` is the parsed XML node shape the
collector consumes (`name`, `attr`); `CompileIconFontResult` is the registry
part of the result aggregate (lines 245-279 of the source; the binary output
slots and the dependency lists are modelled separately by the orchestrator
embedding since they carry opaque codec output and I/O paths). -/

structure SVGIcon where
  iconName : String
  className : String
  unicode : Nat
  autoUnicode : Bool
  title : Option String
  deriving Repr, DecidableEq

structure SVGNode where
  name : String
  attr : List (String × String)
  deriving Repr, DecidableEq

structure CompileIconFontResult where
  icons : List SVGIcon
  iconNames : List String
  classNames : List String
  unicodes : List Nat
  startUnicode : Nat
  deriving Repr, DecidableEq

/-- The fresh result created at the start of either entry point (lines 25-33
and 102-110): empty icon list, empty registry sets, and the configured
starting code point. -/
def emptyResult (startUnicode : Nat) : CompileIconFontResult :=
  { icons := [], iconNames := [], classNames := [], unicodes := [], startUnicode := startUnicode }

/-! ### String helpers

The JavaScript string operations the collector uses, written over `List Char`
so every definition reduces in the kernel.  `getName` models the external
path helper `getName(path, false)` from `tutils/path`: the final path
component with its last extension stripped. -/

def splitOnChar (c : Char) : List Char → List (List Char)
  | [] => [[]]
  | x :: xs =>
    match splitOnChar c xs with
    | [] => if x = c then [[], []] else [[x]]
    | h :: t => if x = c then [] :: h :: t else (x :: h) :: t

/-- Models the external path helper `getName(path, false)`: the last `/`
component of the path, without its final `.`-extension. -/
def getName (path : String) : String :=
  let base := (splitOnChar '/' path.data).getLastD []
  let parts := splitOnChar '.' base
  if parts.length ≤ 1 then String.mk base
  else String.mk (List.intercalate ['.'] parts.dropLast)

def hexDigitVal (c : Char) : Option Nat :=
  if '0' ≤ c ∧ c ≤ '9' then some (c.toNat - '0'.toNat)
  else if 'a' ≤ c ∧ c ≤ 'f' then some (c.toNat - 'a'.toNat + 10)
  else if 'A' ≤ c ∧ c ≤ 'F' then some (c.toNat - 'A'.toNat + 10)
  else none

def decDigitVal (c : Char) : Option Nat :=
  if '0' ≤ c ∧ c ≤ '9' then some (c.toNat - '0'.toNat) else none

def parseDigitsAux (digit : Char → Option Nat) (base : Nat) : List Char → Nat → Nat
  | [], acc => acc
  | c :: cs, acc =>
    match digit c with
    | some d => parseDigitsAux digit base cs (base * acc + d)
    | none => acc

/-- `parseInt(s, 16)` on the string after the `0x` marker: the longest leading
run of hexadecimal digits, `NaN` (`none`) when there is none. -/
def parseHexNat (l : List Char) : Option Nat :=
  match l with
  | [] => none
  | c :: _ => if (hexDigitVal c).isSome then some (parseDigitsAux hexDigitVal 16 l 0) else none

/-- The integral fragment of `parseFloat(s)`: the longest leading run of
decimal digits, `NaN` (`none`) when there is none.  The compiler feeds the
parsed values into code points, font heights and counters, all integral;
fractional and exponent forms are outside what any claim or downstream
consumer of this embedding observes. -/
def parseDecNat (l : List Char) : Option Nat :=
  match l with
  | [] => none
  | c :: _ => if (decDigitVal c).isSome then some (parseDigitsAux decDigitVal 10 l 0) else none

/-- Embeds `parseBoolean` (lines 77-79): absent stays absent, otherwise every
string but the literal `"false"` is `true`. -/
def parseBoolean : Option String → Option Bool
  | none => none
  | some v => some (v ≠ "false")

/-- Embeds `parseNumber` (lines 81-92): `0x`-prefixed hexadecimal, `%`-suffixed
percentage (divided by 100), else plain numeric literal. -/
def parseNumber : Option String → Option Nat
  | none => none
  | some v =>
    if List.isPrefixOf ['0', 'x'] v.data then parseHexNat (v.data.drop 2)
    else if v.data.getLast? = some '%' then (parseDecNat v.data).map (· / 100)
    else parseDecNat v.data

/-! ### The Icon Collector (`processNode`, lines 318-331, and the
object-source branch of `compileIconFontFromSources`, lines 114-126) -/

/-- The explicit `unicode` attribute of a node:
`icon.attr.unicode.startsWith("0x") ? parseNumber(icon.attr.unicode) :
icon.attr.unicode.codePointAt(0)`.  `codePointAt(0)` of the empty string is
`undefined`, i.e. `none`. -/
def parseUnicodeAttr (s : String) : Option Nat :=
  if List.isPrefixOf ['0', 'x'] s.data then parseNumber (some s)
  else s.data.head?.map Char.toNat

/-- Embeds `processNode`: a node whose tag is not `svg` is ignored; otherwise
the icon's name, class, code point and title are allocated in that order and
the icon is appended to the result. -/
def processNode (icon : SVGNode) (path : String) (result : CompileIconFontResult) :
    CompileIconFontResult :=
  if icon.name = "svg" then
    let n := getUnique ((icon.attr.lookup "id").getD (getName path)) result.iconNames
    let c := getUnique ((icon.attr.lookup "class").getD n.1) result.classNames
    match icon.attr.lookup "unicode" with
    | some uAttr =>
      let u := getUniqueUnicode (parseUnicodeAttr uAttr) result.unicodes
      { result with
          icons := result.icons ++
            [{ iconName := n.1, className := c.1, unicode := u.1, autoUnicode := false,
               title := some ((icon.attr.lookup "title").getD n.1) }]
          iconNames := n.2
          classNames := c.2
          unicodes := u.2 }
    | none =>
      let u := getUniqueUnicode (some result.startUnicode) result.unicodes
      { result with
          icons := result.icons ++
            [{ iconName := n.1, className := c.1, unicode := u.1, autoUnicode := true,
               title := some ((icon.attr.lookup "title").getD n.1) }]
          iconNames := n.2
          classNames := c.2
          unicodes := u.2
          startUnicode := u.1 }
  else result

/-- A caller-supplied source object of `compileIconFontFromSources` (the
`{ path, content, …overrides }` shape).  A JavaScript `unicode` override can
be absent (`none`) or a number that may itself be `NaN` (`some none`). -/
structure SVGIconSource where
  path : String
  iconName : Option String
  className : Option String
  unicode : Option (Option Nat)
  deriving Repr, DecidableEq

/-- Embeds the object branch of the `compileIconFontFromSources` loop (lines
115-125): caller overrides are passed through the same allocators; no title
is assigned. -/
def processSource (source : SVGIconSource) (result : CompileIconFontResult) :
    CompileIconFontResult :=
  let n := getUnique (source.iconName.getD (getName source.path)) result.iconNames
  let c := getUnique (source.className.getD n.1) result.classNames
  match source.unicode with
  | some uVal =>
    let u := getUniqueUnicode uVal result.unicodes
    { result with
        icons := result.icons ++
          [{ iconName := n.1, className := c.1, unicode := u.1, autoUnicode := false,
             title := none }]
        iconNames := n.2
        classNames := c.2
        unicodes := u.2 }
  | none =>
    let u := getUniqueUnicode (some result.startUnicode) result.unicodes
    { result with
        icons := result.icons ++
          [{ iconName := n.1, className := c.1, unicode := u.1, autoUnicode := true,
             title := none }]
        iconNames := n.2
        classNames := c.2
        unicodes := u.2
        startUnicode := u.1 }

/-- Collection in manifest mode: the entry point visits the manifest's `svg`
children (inline, literal `src`, or each glob match) in document order, and
every visited node reaches `processNode` with its source path. -/
def collectNodes (nodes : List (SVGNode × String)) (result : CompileIconFontResult) :
    CompileIconFontResult :=
  nodes.foldl (fun r np => processNode np.1 np.2 r) result

/-- Collection in explicit-source mode: the object sources are processed in
list order. -/
def collectSources (sources : List SVGIconSource) (result : CompileIconFontResult) :
    CompileIconFontResult :=
  sources.foldl (fun r s => processSource s r) result

/-- The registry invariant of one compile run: the collected icons carry
pairwise-distinct names, class names and code points, and every collected
identity is registered in its set. -/
def Invariant (r : CompileIconFontResult) : Prop :=
  (r.icons.map SVGIcon.iconName).Nodup ∧
    (r.icons.map SVGIcon.className).Nodup ∧
    (r.icons.map SVGIcon.unicode).Nodup ∧
    ∀ i ∈ r.icons, i.iconName ∈ r.iconNames ∧ i.className ∈ r.classNames ∧
      i.unicode ∈ r.unicodes

/-! ### The Format Orchestrator (`generateIconFont`, lines 359-419)

The source computes nine boolean flags by a `switch` cascade over the
requested formats, then generates each artifact under its flag, in the fixed
textual order of the `if` blocks.  `applyFormat` is one `case` of the switch;
`generationEvents` lists which generation steps run, each at most once. -/

inductive FontFormat where
  | svgFont | eot | ttf | woff | woff2 | js | svg | css | html
  deriving Repr, DecidableEq

structure GenerateFlags where
  svgFont : Bool
  eot : Bool
  ttf : Bool
  woff : Bool
  woff2 : Bool
  js : Bool
  svg : Bool
  css : Bool
  html : Bool
  deriving Repr, DecidableEq

/-- The nine `let …: boolean` flags before the loop: all unset. -/
def GenerateFlags.init : GenerateFlags :=
  { svgFont := false, eot := false, ttf := false, woff := false, woff2 := false,
    js := false, svg := false, css := false, html := false }

/-- One `case` of the `switch (format)` cascade (lines 362-390). -/
def applyFormat (f : GenerateFlags) : FontFormat → GenerateFlags
  | .svgFont => { f with svgFont := true }
  | .ttf => { f with ttf := true, svgFont := true }
  | .eot => { f with eot := true, ttf := true, svgFont := true }
  | .woff => { f with woff := true, ttf := true, svgFont := true }
  | .woff2 => { f with woff2 := true, ttf := true, svgFont := true }
  | .js => { f with js := true, svg := true }
  | .svg => { f with svg := true }
  | .css => { f with css := true }
  | .html => { f with html := true }

/-- The flag state after the whole `for (const format of formats)` loop. -/
def computeFlags (formats : List FontFormat) : GenerateFlags :=
  formats.foldl applyFormat GenerateFlags.init

/-- The flag guarding the generation step of one artifact. -/
def GenerateFlags.get (f : GenerateFlags) : FontFormat → Bool
  | .svgFont => f.svgFont
  | .eot => f.eot
  | .ttf => f.ttf
  | .woff => f.woff
  | .woff2 => f.woff2
  | .js => f.js
  | .svg => f.svg
  | .css => f.css
  | .html => f.html

/-- The textual order of the guarded `if` blocks after the loop
(lines 392-418): font container, ttf, eot, woff, woff2, sprite, js, css,
html. -/
def generationOrder : List FontFormat :=
  [.svgFont, .ttf, .eot, .woff, .woff2, .svg, .js, .css, .html]

/-- The generation steps that actually run for a request, in execution order;
each step writes its own result slot, so a slot is non-empty exactly when its
step appears here. -/
def generationEvents (formats : List FontFormat) : List FontFormat :=
  generationOrder.filter (computeFlags formats).get

/-- The default `formats` argument shared by `compileIconFont` (line 22) and
`compileIconFontFromSources` (line 101). -/
def defaultFormats : List FontFormat :=
  [.eot, .ttf, .woff, .woff2, .css, .html]

/-! ### Compile options -/

/-- The compile option fields the core logic itself reads.  Fields that are
passed through verbatim to the external codecs (`fontId`, `fontStyle`,
`fontWeight`, `metadata`, the `ttf` sub-options) are omitted: no registry,
orchestrator or text-generator decision depends on them. -/
structure IconFontOptions where
  fontName : Option String := none
  fixedWidth : Option Bool := none
  centerHorizontally : Option Bool := none
  normalize : Option Bool := none
  fontHeight : Option Nat := none
  round : Option Nat := none
  descent : Option Nat := none
  ascent : Option Nat := none
  startUnicode : Option Nat := none
  classNamePrefix : Option String := none
  fileName : Option String := none
  hash : Option String := none
  deriving Repr, DecidableEq

/-- The manifest-attribute option resolution of `compileIconFont`
(lines 56-73), without caller overrides (the `...options` spread).  The
attribute key `foroundntHeight` for the `round` option is reproduced from the
source as written. -/
def optionsFromAttrs (attrs : List (String × String)) (path : String)
    (startUnicode : Nat) : IconFontOptions :=
  { fontName := some ((attrs.lookup "fontName").getD (getName path))
    ascent := parseNumber (attrs.lookup "ascent")
    centerHorizontally := parseBoolean (attrs.lookup "centerHorizontally")
    descent := parseNumber (attrs.lookup "descent")
    fixedWidth := parseBoolean (attrs.lookup "fixedWidth")
    fontHeight := parseNumber (attrs.lookup "fontHeight")
    normalize := parseBoolean (attrs.lookup "normalize")
    round := parseNumber (attrs.lookup "foroundntHeight")
    startUnicode := some startUnicode
    classNamePrefix := attrs.lookup "classNamePrefix"
    fileName := some path
    hash := none }

/-- The option defaulting performed at the top of `generateSVGFont`
(lines 422-430), including the empty-icon-list workaround: `if
(!icons.length) options.normalize = true`.  The result is the option record
handed to the external `SVGIcons2SVGFontStream` codec. -/
def resolveSVGFontOptions (icons : List SVGIcon) (options : IconFontOptions) :
    IconFontOptions :=
  let o := { options with
    fontHeight := some (options.fontHeight.getD 1024)
    round := some (options.round.getD 10000000000000)
    centerHorizontally := some (options.centerHorizontally.getD true)
    normalize := some (options.normalize.getD true)
    descent := some (options.descent.getD 150) }
  if icons.length = 0 then { o with normalize := some true } else o

/-! ### The stylesheet generator (`generateCSS`, lines 476-503) -/

/-- The per-icon rule of the template:
`.${classNamePrefix ? classNamePrefix + "-" : classNamePrefix}${icon.className}:before { content: "\…"; }`
with the code point in lowercase hexadecimal.  A JavaScript string is truthy
exactly when non-empty. -/
def cssRule (classNamePrefix : String) (icon : SVGIcon) : String :=
  "." ++ (if classNamePrefix ≠ "" then classNamePrefix ++ "-" else classNamePrefix) ++
    icon.className ++ ":before \x7b content: \"\\" ++ natToHexString icon.unicode ++ "\"; \x7d"

/-- The fixed part of the stylesheet template (the `@font-face` block and the
shared base class), before the per-icon rules. -/
def cssHeader (classNamePrefix baseName hash : String) : String :=
  "@font-face \x7b\n\tfont-family: '" ++ classNamePrefix ++ "';\n\tsrc: url('" ++
    baseName ++ ".eot?v=" ++ hash ++ "'); /* IE9 */\n\tsrc: url('" ++ baseName ++
    ".eot?#iefix&v=" ++ hash ++ "') format('embedded-opentype') /* IE6-IE8 */, url('" ++
    baseName ++ ".woff2?v=" ++ hash ++ "') format('woff2') /* Chrome, Firefox */, url('" ++
    baseName ++ ".woff?v=" ++ hash ++ "') format('woff') /* Chrome, Firefox */, url('" ++
    baseName ++ ".ttf?v=" ++ hash ++
    "') format('truetype') /* Chrome, Firefox, Opera, Safari, Android, iOS 4.2+ */, url('" ++
    baseName ++ ".svg?v=" ++ hash ++ "#regular') format('svg') /* iOS 4.1- */;\n\t" ++
    "font-weight: normal;\n\tfont-style: normal;\n\x7d\n." ++ classNamePrefix ++
    " \x7b\n\tdisplay: inline-block;\n\tfont-family: '" ++ classNamePrefix ++
    "';\n\tfont-size: inherit;\n\tfont-weight: normal;\n\tfont-style: normal;\n\t" ++
    "font-variant: normal;\n\tline-height: 1;\n\ttext-decoration: none !important;\n\t" ++
    "text-rendering: auto;\n\ttext-transform: none;\n\t" ++
    "-webkit-font-smoothing: antialiased;\n\t-moz-osx-font-smoothing: grayscale;\n\t" ++
    "user-select: none;\n\x7d\n"

/-- Embeds `generateCSS`: base name from `fileName ?? fontName ?? "icon"`,
class prefix from `classNamePrefix ?? baseName`, cache hash from
`hash ?? icons.length`, then the template with one rule per icon joined by
newlines. -/
def generateCSS (icons : List SVGIcon) (options : IconFontOptions) : String :=
  let baseName := getName ((options.fileName).getD ((options.fontName).getD "icon"))
  let classNamePrefix := (options.classNamePrefix).getD baseName
  let hash := (options.hash).getD (natToString icons.length)
  cssHeader classNamePrefix baseName hash ++
    String.intercalate "\n" (icons.map (cssRule classNamePrefix))

/-- Substring occurrence over character lists (the naive scan): used to state
and decide containment of a rule in a generated stylesheet. -/
def containsRun (needle : List Char) : List Char → Bool
  | [] => needle.isEmpty
  | c :: t => needle.isPrefixOf (c :: t) || containsRun needle t

/-! ## Theorems -/

set_option maxRecDepth 8192

theorem toDigitsLE_eq_digits (b : Nat) (hb : 2 ≤ b) :
    ∀ fuel n, n ≤ fuel → toDigitsLE b fuel n = Nat.digits b n := by
  intro fuel
  induction fuel with
  | zero =>
    intro n hn
    interval_cases n
    simp [toDigitsLE]
  | succ fuel ih =>
    intro n hn
    by_cases h0 : n = 0
    · simp [toDigitsLE, h0]
    · have hpos : 0 < n := Nat.pos_of_ne_zero h0
      have hb1 : 1 < b := lt_of_lt_of_le one_lt_two hb
      rw [toDigitsLE, if_neg h0, Nat.digits_def' hb1 hpos]
      have hdiv : n / b ≤ fuel := by
        have := Nat.div_lt_self hpos hb1
        omega
      rw [ih (n / b) hdiv]

theorem digitChar_inj16 :
    ∀ x, x < 16 → ∀ y, y < 16 → Nat.digitChar x = Nat.digitChar y → x = y := by
  decide

theorem map_digitChar_inj :
    ∀ l₁ l₂ : List Nat, (∀ d ∈ l₁, d < 16) → (∀ d ∈ l₂, d < 16) →
      l₁.map Nat.digitChar = l₂.map Nat.digitChar → l₁ = l₂ := by
  intro l₁
  induction l₁ with
  | nil =>
    intro l₂ _ _ h
    cases l₂ with
    | nil => rfl
    | cons y ys => simp at h
  | cons x xs ih =>
    intro l₂ h₁ h₂ h
    cases l₂ with
    | nil => simp at h
    | cons y ys =>
      simp only [List.map_cons, List.cons.injEq] at h
      have hx := h₁ x (List.mem_cons_self x xs)
      have hy := h₂ y (List.mem_cons_self y ys)
      have hxy := digitChar_inj16 x hx y hy h.1
      have := ih ys (fun d hd => h₁ d (List.mem_cons_of_mem x hd))
        (fun d hd => h₂ d (List.mem_cons_of_mem y hd)) h.2
      rw [hxy, this]

theorem toBaseString_injective (b : Nat) (hb : 2 ≤ b) (hb16 : b ≤ 16) :
    ∀ m n : Nat, toBaseString b m = toBaseString b n → m = n := by
  have hb1 : 1 < b := lt_of_lt_of_le one_lt_two hb
  have hdig : ∀ k : Nat, ∀ d ∈ Nat.digits b k, d < 16 :=
    fun k d hd => lt_of_lt_of_le (Nat.digits_lt_base hb1 hd) hb16
  have hzero : ∀ n : Nat, n ≠ 0 → toBaseString b n ≠ "0" := by
    intro n hn hcontra
    rw [toBaseString, if_neg hn, toDigitsLE_eq_digits b hb n n le_rfl] at hcontra
    have hdata : ((Nat.digits b n).reverse.map Nat.digitChar) = ['0'] :=
      congrArg String.data hcontra
    have h1 : (Nat.digits b n).reverse = [0] := by
      apply map_digitChar_inj _ [0]
      · intro d hd
        exact hdig n d (List.mem_reverse.mp hd)
      · intro d hd
        simp at hd
        omega
      · simpa using hdata
    have h2 : Nat.digits b n = [0] := by
      have := congrArg List.reverse h1
      simpa using this
    have h3 := Nat.ofDigits_digits b n
    rw [h2] at h3
    simp [Nat.ofDigits] at h3
    exact hn h3.symm
  intro m n h
  by_cases hm : m = 0 <;> by_cases hn : n = 0
  · rw [hm, hn]
  · exfalso
    apply hzero n hn
    rw [← h, hm, toBaseString]
    simp
  · exfalso
    apply hzero m hm
    rw [h, hn, toBaseString]
    simp
  · rw [toBaseString, if_neg hm, toDigitsLE_eq_digits b hb m m le_rfl,
      toBaseString, if_neg hn, toDigitsLE_eq_digits b hb n n le_rfl] at h
    have hdata := congrArg String.data h
    simp only at hdata
    have hrev := map_digitChar_inj _ _
      (fun d hd => hdig m d (List.mem_reverse.mp hd))
      (fun d hd => hdig n d (List.mem_reverse.mp hd)) hdata
    have hdigits : Nat.digits b m = Nat.digits b n := by
      have := congrArg List.reverse hrev
      simpa using this
    exact Nat.digits_inj_iff.mp hdigits

theorem natToString_injective : ∀ m n : Nat, natToString m = natToString n → m = n :=
  toBaseString_injective 10 (by norm_num) (by norm_num)

theorem searchFrom_spec (p : Nat → Prop) [DecidablePred p] :
    ∀ fuel start, (∃ i, start ≤ i ∧ i < start + fuel ∧ p i) →
      p (searchFrom p start fuel) ∧ start ≤ searchFrom p start fuel ∧
        ∀ k, start ≤ k → k < searchFrom p start fuel → ¬ p k := by
  intro fuel
  induction fuel with
  | zero =>
    intro start h
    obtain ⟨i, hi1, hi2, _⟩ := h
    omega
  | succ fuel ih =>
    intro start h
    by_cases hp : p start
    · refine ⟨by simp [searchFrom, hp], by simp [searchFrom, hp], ?_⟩
      intro k hk1 hk2
      rw [searchFrom, if_pos hp] at hk2
      omega
    · have hnext : ∃ i, start + 1 ≤ i ∧ i < start + 1 + fuel ∧ p i := by
        obtain ⟨i, hi1, hi2, hi3⟩ := h
        refine ⟨i, ?_, by omega, hi3⟩
        rcases Nat.eq_or_lt_of_le hi1 with heq | hlt
        · exact absurd (heq ▸ hi3) hp
        · omega
      obtain ⟨h1, h2, h3⟩ := ih (start + 1) hnext
      rw [searchFrom, if_neg hp]
      refine ⟨h1, by omega, ?_⟩
      intro k hk1 hk2
      rcases Nat.eq_or_lt_of_le hk1 with heq | hlt
      · exact heq ▸ hp
      · exact h3 k hlt hk2

theorem exists_free_in_window {α : Type} [DecidableEq α] (f : Nat → α)
    (hf : Function.Injective f) (used : List α) (start : Nat) :
    ∃ i, start ≤ i ∧ i < start + (used.length + 1) ∧ f i ∉ used := by
  by_contra h
  push_neg at h
  have himg : (Finset.Ico start (start + (used.length + 1))).image f ⊆ used.toFinset := by
    intro x hx
    rw [Finset.mem_image] at hx
    obtain ⟨i, hi, rfl⟩ := hx
    rw [Finset.mem_Ico] at hi
    exact List.mem_toFinset.mpr (h i hi.1 hi.2)
  have hcard := Finset.card_le_card himg
  rw [Finset.card_image_of_injective _ hf, Nat.card_Ico] at hcard
  have hle := used.toFinset_card_le
  omega

theorem string_append_left_cancel {s a b : String} (h : s ++ a = s ++ b) : a = b := by
  have hd : s.data ++ a.data = s.data ++ b.data := by
    have h1 := congrArg String.data h
    simpa using h1
  have h2 := List.append_cancel_left hd
  cases a
  cases b
  exact congrArg String.mk h2

theorem candidate_injective (content : String) :
    Function.Injective (fun i : Nat => content ++ "-" ++ natToString i) := by
  intro i j h
  simp only at h
  exact natToString_injective i j (string_append_left_cancel h)

theorem getUnique_spec (content : String) (used : List String) :
    (getUnique content used).1 ∉ used ∧
      (getUnique content used).2 = (getUnique content used).1 :: used ∧
      (content ∉ used → (getUnique content used).1 = content) := by
  by_cases hmem : content ∈ used
  · have hex := exists_free_in_window _ (candidate_injective content) used 2
    have hs := searchFrom_spec (fun i => content ++ "-" ++ natToString i ∉ used)
      (used.length + 1) 2 hex
    refine ⟨?_, ?_, ?_⟩
    · simpa [getUnique, hmem] using hs.1
    · simp [getUnique, hmem]
    · intro h
      exact absurd hmem h
  · exact ⟨by simp [getUnique, hmem], by simp [getUnique, hmem],
      fun _ => by simp [getUnique, hmem]⟩

theorem getUnique_spec_mem (content : String) (used : List String)
    (hmem : content ∈ used) :
    ∃ i, 2 ≤ i ∧ (getUnique content used).1 = content ++ "-" ++ natToString i ∧
      content ++ "-" ++ natToString i ∉ used ∧
      ∀ j, 2 ≤ j → j < i → content ++ "-" ++ natToString j ∈ used := by
  have hex := exists_free_in_window _ (candidate_injective content) used 2
  have hs := searchFrom_spec (fun i => content ++ "-" ++ natToString i ∉ used)
    (used.length + 1) 2 hex
  refine ⟨searchFrom (fun i => content ++ "-" ++ natToString i ∉ used) 2 (used.length + 1),
    hs.2.1, by simp [getUnique, hmem], hs.1, ?_⟩
  intro j hj1 hj2
  have := hs.2.2 j hj1 hj2
  exact not_not.mp this

theorem getUniqueUnicode_spec (cand : Option Nat) (used : List Nat) :
    (getUniqueUnicode cand used).1 ∉ used ∧
      cand.getD 0xea01 ≤ (getUniqueUnicode cand used).1 ∧
      (∀ k, cand.getD 0xea01 ≤ k → k < (getUniqueUnicode cand used).1 → k ∈ used) ∧
      (getUniqueUnicode cand used).2 = (getUniqueUnicode cand used).1 :: used := by
  have hex := exists_free_in_window (fun v : Nat => v) (fun _ _ h => h) used (cand.getD 0xea01)
  have hs := searchFrom_spec (fun v => v ∉ used) (used.length + 1) (cand.getD 0xea01) hex
  refine ⟨hs.1, hs.2.1, ?_, rfl⟩
  intro k hk1 hk2
  exact not_not.mp (hs.2.2 k hk1 hk2)

theorem getUnique_eq_of_not_mem (content : String) (used : List String)
    (h : content ∉ used) : getUnique content used = (content, content :: used) := by
  simp [getUnique, h]

theorem getUniqueUnicode_eq_start (cand : Option Nat) (used : List Nat)
    (h : cand.getD 0xea01 ∉ used) :
    (getUniqueUnicode cand used).1 = cand.getD 0xea01 := by
  have hs := getUniqueUnicode_spec cand used
  rcases Nat.eq_or_lt_of_le hs.2.1 with heq | hlt
  · exact heq.symm
  · exact absurd (hs.2.2.1 (cand.getD 0xea01) le_rfl hlt) h

theorem getUniqueUnicode_eq_succ (s : Nat) (used : List Nat)
    (h1 : s ∈ used) (h2 : s + 1 ∉ used) :
    (getUniqueUnicode (some s) used).1 = s + 1 := by
  have hs := getUniqueUnicode_spec (some s) used
  have hne : (getUniqueUnicode (some s) used).1 ≠ s := fun hc => hs.1 (by rw [hc]; exact h1)
  have hge : s + 1 ≤ (getUniqueUnicode (some s) used).1 := by
    have := hs.2.1
    simp only [Option.getD_some] at this
    omega
  rcases Nat.eq_or_lt_of_le hge with heq | hlt
  · exact heq.symm
  · exact absurd (hs.2.2.1 (s + 1) (by simp) hlt) h2

/-- One collection step on a non-`svg` node is the identity. -/
theorem processNode_not_svg (node : SVGNode) (path : String)
    (r : CompileIconFontResult) (h : ¬ node.name = "svg") :
    processNode node path r = r := by
  simp [processNode, h]

/-- One collection step on an `svg` node appends exactly one icon whose three
identities were all fresh at call time and registers them. -/
theorem processNode_svg_char (node : SVGNode) (path : String)
    (r : CompileIconFontResult) (h : node.name = "svg") :
    ∃ icon : SVGIcon,
      (processNode node path r).icons = r.icons ++ [icon] ∧
      icon.iconName ∉ r.iconNames ∧ icon.className ∉ r.classNames ∧
      icon.unicode ∉ r.unicodes ∧
      (processNode node path r).iconNames = icon.iconName :: r.iconNames ∧
      (processNode node path r).classNames = icon.className :: r.classNames ∧
      (processNode node path r).unicodes = icon.unicode :: r.unicodes ∧
      (processNode node path r).startUnicode =
        (if node.attr.lookup "unicode" = none then icon.unicode else r.startUnicode) := by
  have hn := getUnique_spec ((node.attr.lookup "id").getD (getName path)) r.iconNames
  have hc := getUnique_spec ((node.attr.lookup "class").getD
    (getUnique ((node.attr.lookup "id").getD (getName path)) r.iconNames).1) r.classNames
  cases hu : node.attr.lookup "unicode" with
  | some uAttr =>
    have hw := getUniqueUnicode_spec (parseUnicodeAttr uAttr) r.unicodes
    refine ⟨{ iconName := (getUnique ((node.attr.lookup "id").getD (getName path)) r.iconNames).1,
              className := (getUnique ((node.attr.lookup "class").getD
                (getUnique ((node.attr.lookup "id").getD (getName path)) r.iconNames).1)
                r.classNames).1,
              unicode := (getUniqueUnicode (parseUnicodeAttr uAttr) r.unicodes).1,
              autoUnicode := false,
              title := some ((node.attr.lookup "title").getD
                (getUnique ((node.attr.lookup "id").getD (getName path)) r.iconNames).1) },
      ?_, hn.1, hc.1, hw.1, ?_, ?_, ?_, ?_⟩ <;>
      simp [processNode, h, hu, hn.2.1, hc.2.1, hw.2.2.2]
  | none =>
    have hw := getUniqueUnicode_spec (some r.startUnicode) r.unicodes
    refine ⟨{ iconName := (getUnique ((node.attr.lookup "id").getD (getName path)) r.iconNames).1,
              className := (getUnique ((node.attr.lookup "class").getD
                (getUnique ((node.attr.lookup "id").getD (getName path)) r.iconNames).1)
                r.classNames).1,
              unicode := (getUniqueUnicode (some r.startUnicode) r.unicodes).1,
              autoUnicode := true,
              title := some ((node.attr.lookup "title").getD
                (getUnique ((node.attr.lookup "id").getD (getName path)) r.iconNames).1) },
      ?_, hn.1, hc.1, hw.1, ?_, ?_, ?_, ?_⟩ <;>
      simp [processNode, h, hu, hn.2.1, hc.2.1, hw.2.2.2]

/-- One explicit-source step appends exactly one icon whose three identities
were all fresh at call time and registers them. -/
theorem processSource_char (source : SVGIconSource) (r : CompileIconFontResult) :
    ∃ icon : SVGIcon,
      (processSource source r).icons = r.icons ++ [icon] ∧
      icon.iconName ∉ r.iconNames ∧ icon.className ∉ r.classNames ∧
      icon.unicode ∉ r.unicodes ∧
      (processSource source r).iconNames = icon.iconName :: r.iconNames ∧
      (processSource source r).classNames = icon.className :: r.classNames ∧
      (processSource source r).unicodes = icon.unicode :: r.unicodes := by
  have hn := getUnique_spec (source.iconName.getD (getName source.path)) r.iconNames
  have hc := getUnique_spec (source.className.getD
    (getUnique (source.iconName.getD (getName source.path)) r.iconNames).1) r.classNames
  cases hu : source.unicode with
  | some uVal =>
    have hw := getUniqueUnicode_spec uVal r.unicodes
    refine ⟨{ iconName := (getUnique (source.iconName.getD (getName source.path)) r.iconNames).1,
              className := (getUnique (source.className.getD
                (getUnique (source.iconName.getD (getName source.path)) r.iconNames).1)
                r.classNames).1,
              unicode := (getUniqueUnicode uVal r.unicodes).1,
              autoUnicode := false,
              title := none },
      ?_, hn.1, hc.1, hw.1, ?_, ?_, ?_⟩ <;>
      simp [processSource, hu, hn.2.1, hc.2.1, hw.2.2.2]
  | none =>
    have hw := getUniqueUnicode_spec (some r.startUnicode) r.unicodes
    refine ⟨{ iconName := (getUnique (source.iconName.getD (getName source.path)) r.iconNames).1,
              className := (getUnique (source.className.getD
                (getUnique (source.iconName.getD (getName source.path)) r.iconNames).1)
                r.classNames).1,
              unicode := (getUniqueUnicode (some r.startUnicode) r.unicodes).1,
              autoUnicode := true,
              title := none },
      ?_, hn.1, hc.1, hw.1, ?_, ?_, ?_⟩ <;>
      simp [processSource, hu, hn.2.1, hc.2.1, hw.2.2.2]

theorem invariant_step (r : CompileIconFontResult) (icon : SVGIcon)
    (r' : CompileIconFontResult) (hinv : Invariant r)
    (hic : r'.icons = r.icons ++ [icon])
    (hn : icon.iconName ∉ r.iconNames) (hc : icon.className ∉ r.classNames)
    (hu : icon.unicode ∉ r.unicodes)
    (hns : r'.iconNames = icon.iconName :: r.iconNames)
    (hcs : r'.classNames = icon.className :: r.classNames)
    (hus : r'.unicodes = icon.unicode :: r.unicodes) :
    Invariant r' := by
  obtain ⟨h1, h2, h3, h4⟩ := hinv
  refine ⟨?_, ?_, ?_, ?_⟩
  · rw [hic, List.map_append]
    refine List.Nodup.append h1 (by simp) ?_
    intro x hx
    simp only [List.map_cons, List.map_nil, List.mem_cons, List.not_mem_nil, or_false]
    intro hx1
    obtain ⟨i, hi, hxi⟩ := List.mem_map.mp hx
    exact hn (hx1 ▸ hxi ▸ (h4 i hi).1)
  · rw [hic, List.map_append]
    refine List.Nodup.append h2 (by simp) ?_
    intro x hx
    simp only [List.map_cons, List.map_nil, List.mem_cons, List.not_mem_nil, or_false]
    intro hx1
    obtain ⟨i, hi, hxi⟩ := List.mem_map.mp hx
    exact hc (hx1 ▸ hxi ▸ (h4 i hi).2.1)
  · rw [hic, List.map_append]
    refine List.Nodup.append h3 (by simp) ?_
    intro x hx
    simp only [List.map_cons, List.map_nil, List.mem_cons, List.not_mem_nil, or_false]
    intro hx1
    obtain ⟨i, hi, hxi⟩ := List.mem_map.mp hx
    exact hu (hx1 ▸ hxi ▸ (h4 i hi).2.2)
  · intro i hi
    rw [hic] at hi
    rw [hns, hcs, hus]
    rcases List.mem_append.mp hi with hold | hnew
    · obtain ⟨g1, g2, g3⟩ := h4 i hold
      exact ⟨List.mem_cons_of_mem _ g1, List.mem_cons_of_mem _ g2, List.mem_cons_of_mem _ g3⟩
    · simp only [List.mem_singleton] at hnew
      subst hnew
      exact ⟨List.mem_cons_self _ _, List.mem_cons_self _ _, List.mem_cons_self _ _⟩

theorem invariant_processNode (node : SVGNode) (path : String)
    (r : CompileIconFontResult) (hinv : Invariant r) :
    Invariant (processNode node path r) := by
  by_cases h : node.name = "svg"
  · obtain ⟨icon, hic, hn, hc, hu, hns, hcs, hus, _⟩ := processNode_svg_char node path r h
    exact invariant_step r icon _ hinv hic hn hc hu hns hcs hus
  · rw [processNode_not_svg node path r h]
    exact hinv

theorem invariant_processSource (source : SVGIconSource)
    (r : CompileIconFontResult) (hinv : Invariant r) :
    Invariant (processSource source r) := by
  obtain ⟨icon, hic, hn, hc, hu, hns, hcs, hus⟩ := processSource_char source r
  exact invariant_step r icon _ hinv hic hn hc hu hns hcs hus

theorem invariant_collectNodes (nodes : List (SVGNode × String))
    (r : CompileIconFontResult) (hinv : Invariant r) :
    Invariant (collectNodes nodes r) := by
  induction nodes generalizing r with
  | nil => exact hinv
  | cons np rest ih =>
    exact ih (processNode np.1 np.2 r) (invariant_processNode np.1 np.2 r hinv)

theorem invariant_collectSources (sources : List SVGIconSource)
    (r : CompileIconFontResult) (hinv : Invariant r) :
    Invariant (collectSources sources r) := by
  induction sources generalizing r with
  | nil => exact hinv
  | cons s rest ih =>
    exact ih (processSource s r) (invariant_processSource s r hinv)

theorem invariant_empty (su : Nat) : Invariant (emptyResult su) := by
  refine ⟨by simp [emptyResult], by simp [emptyResult], by simp [emptyResult], ?_⟩
  intro i hi
  simp [emptyResult] at hi

theorem processNode_mono (node : SVGNode) (path : String) (r : CompileIconFontResult) :
    r.iconNames ⊆ (processNode node path r).iconNames ∧
      r.classNames ⊆ (processNode node path r).classNames ∧
      r.unicodes ⊆ (processNode node path r).unicodes := by
  by_cases h : node.name = "svg"
  · obtain ⟨icon, _, _, _, _, hns, hcs, hus, _⟩ := processNode_svg_char node path r h
    rw [hns, hcs, hus]
    exact ⟨fun x hx => List.mem_cons_of_mem _ hx, fun x hx => List.mem_cons_of_mem _ hx,
      fun x hx => List.mem_cons_of_mem _ hx⟩
  · rw [processNode_not_svg node path r h]
    exact ⟨fun x hx => hx, fun x hx => hx, fun x hx => hx⟩

theorem processSource_mono (source : SVGIconSource) (r : CompileIconFontResult) :
    r.iconNames ⊆ (processSource source r).iconNames ∧
      r.classNames ⊆ (processSource source r).classNames ∧
      r.unicodes ⊆ (processSource source r).unicodes := by
  obtain ⟨icon, _, _, _, _, hns, hcs, hus⟩ := processSource_char source r
  rw [hns, hcs, hus]
  exact ⟨fun x hx => List.mem_cons_of_mem _ hx, fun x hx => List.mem_cons_of_mem _ hx,
    fun x hx => List.mem_cons_of_mem _ hx⟩

/-! ## Claim theorems -/

/-- C1: for every compile run (either entry point), after collection completes
the icons list has pairwise-distinct `iconName`, `className` and `unicode`
values, and the three registry sets (`iconNames`, `classNames`, `unicodes`)
only ever grow — no collection or allocation operation removes an element. -/
theorem C1_registry_invariant :
    (∀ (su : Nat) (nodes : List (SVGNode × String)),
      Invariant (collectNodes nodes (emptyResult su))) ∧
    (∀ (su : Nat) (sources : List SVGIconSource),
      Invariant (collectSources sources (emptyResult su))) ∧
    (∀ (node : SVGNode) (path : String) (r : CompileIconFontResult),
      r.iconNames ⊆ (processNode node path r).iconNames ∧
        r.classNames ⊆ (processNode node path r).classNames ∧
        r.unicodes ⊆ (processNode node path r).unicodes) ∧
    (∀ (source : SVGIconSource) (r : CompileIconFontResult),
      r.iconNames ⊆ (processSource source r).iconNames ∧
        r.classNames ⊆ (processSource source r).classNames ∧
        r.unicodes ⊆ (processSource source r).unicodes) ∧
    (∀ (content : String) (used : List String), used ⊆ (getUnique content used).2) ∧
    (∀ (cand : Option Nat) (used : List Nat), used ⊆ (getUniqueUnicode cand used).2) :=
  ⟨fun su nodes => invariant_collectNodes nodes (emptyResult su) (invariant_empty su),
   fun su sources => invariant_collectSources sources (emptyResult su) (invariant_empty su),
   fun node path r => processNode_mono node path r,
   fun source r => processSource_mono source r,
   fun content used => by
     rw [(getUnique_spec content used).2.1]
     exact fun x hx => List.mem_cons_of_mem _ hx,
   fun cand used => by
     rw [(getUniqueUnicode_spec cand used).2.2.2]
     exact fun x hx => List.mem_cons_of_mem _ hx⟩

/-- C2: `getUnique` returns the candidate unchanged when it is absent from the
set, and otherwise the candidate suffixed `"-" + i` for the smallest `i ≥ 2`
whose suffixed form is absent; in every case the returned value was not in the
set at call time and is added to the set. -/
theorem C2_getUnique_correct :
    ∀ (content : String) (used : List String),
      (getUnique content used).1 ∉ used ∧
      (getUnique content used).2 = (getUnique content used).1 :: used ∧
      (content ∉ used → (getUnique content used).1 = content) ∧
      (content ∈ used → ∃ i, 2 ≤ i ∧
        (getUnique content used).1 = content ++ "-" ++ natToString i ∧
        ∀ j, 2 ≤ j → j < i → content ++ "-" ++ natToString j ∈ used) := by
  intro content used
  have hs := getUnique_spec content used
  refine ⟨hs.1, hs.2.1, hs.2.2, ?_⟩
  intro hmem
  obtain ⟨i, hi2, heq, _, hleast⟩ := getUnique_spec_mem content used hmem
  exact ⟨i, hi2, heq, hleast⟩

/-- C3: `getUniqueUnicode` substitutes `0xea01` for a `NaN` candidate, then
returns the smallest code point at or above the (possibly substituted)
candidate that is absent from the set, adding it to the set; it is a total
function (every input yields a result, witnessed by the embedding being a Lean
function into `Nat × List Nat`). -/
theorem C3_getUniqueUnicode_correct :
    ∀ (cand : Option Nat) (used : List Nat),
      getUniqueUnicode none used = getUniqueUnicode (some 0xea01) used ∧
      (getUniqueUnicode cand used).1 ∉ used ∧
      cand.getD 0xea01 ≤ (getUniqueUnicode cand used).1 ∧
      (∀ k, cand.getD 0xea01 ≤ k → k < (getUniqueUnicode cand used).1 → k ∈ used) ∧
      (getUniqueUnicode cand used).2 = (getUniqueUnicode cand used).1 :: used := by
  intro cand used
  have hs := getUniqueUnicode_spec cand used
  exact ⟨rfl, hs.1, hs.2.1, hs.2.2.1, hs.2.2.2⟩

/-- C4: requesting exactly `["woff2"]` activates and generates the font
container (`svgFont`), `ttf` and `woff2` and nothing else, and in general a
generation step runs exactly once when its flag is activated, however many
requested formats imply it. -/
theorem C4_orchestrator_woff2 :
    computeFlags [FontFormat.woff2] =
      { svgFont := true, eot := false, ttf := true, woff := false, woff2 := true,
        js := false, svg := false, css := false, html := false } ∧
    generationEvents [FontFormat.woff2] =
      [FontFormat.svgFont, FontFormat.ttf, FontFormat.woff2] ∧
    (∀ formats : List FontFormat, (generationEvents formats).Nodup) ∧
    (∀ (formats : List FontFormat) (fmt : FontFormat),
      fmt ∈ generationEvents formats ↔ (computeFlags formats).get fmt = true) ∧
    (∀ (formats : List FontFormat) (fmt : FontFormat),
      (generationEvents formats).count fmt =
        if (computeFlags formats).get fmt then 1 else 0) := by
  have horder : ∀ fmt : FontFormat, fmt ∈ generationOrder := by
    intro fmt
    cases fmt <;> decide
  have hnodup : ∀ formats : List FontFormat, (generationEvents formats).Nodup :=
    fun formats => List.Nodup.filter _ (by decide)
  have hmem : ∀ (formats : List FontFormat) (fmt : FontFormat),
      fmt ∈ generationEvents formats ↔ (computeFlags formats).get fmt = true := by
    intro formats fmt
    rw [generationEvents, List.mem_filter]
    exact ⟨fun h => h.2, fun h => ⟨horder fmt, h⟩⟩
  refine ⟨by decide, by decide, hnodup, hmem, ?_⟩
  intro formats fmt
  by_cases h : (computeFlags formats).get fmt
  · rw [if_pos h]
    exact List.count_eq_one_of_mem (hnodup formats) ((hmem formats fmt).mpr h)
  · rw [if_neg h]
    exact List.count_eq_zero_of_not_mem (fun hc => h ((hmem formats fmt).mp hc))

/-- C10: both entry points default the `formats` argument to
`["eot", "ttf", "woff", "woff2", "css", "html"]`, so a default compile
generates the font container, all four binary formats, the stylesheet and the
preview, and never the svg sprite or the js injection script. -/
theorem C10_default_formats :
    defaultFormats = [FontFormat.eot, FontFormat.ttf, FontFormat.woff,
      FontFormat.woff2, FontFormat.css, FontFormat.html] ∧
    computeFlags defaultFormats =
      { svgFont := true, eot := true, ttf := true, woff := true, woff2 := true,
        js := false, svg := false, css := true, html := true } ∧
    generationEvents defaultFormats =
      [FontFormat.svgFont, FontFormat.ttf, FontFormat.eot, FontFormat.woff,
        FontFormat.woff2, FontFormat.css, FontFormat.html] ∧
    (computeFlags defaultFormats).get FontFormat.svg = false ∧
    (computeFlags defaultFormats).get FontFormat.js = false := by
  refine ⟨rfl, by decide, by decide, by decide, by decide⟩

/-- C8: for an empty icon list the font-container step always receives
`normalize = true`, whatever the configured normalize option was (including an
explicit `false`). -/
theorem C8_empty_normalize :
    ∀ options : IconFontOptions,
      (resolveSVGFontOptions [] options).normalize = some true ∧
      (resolveSVGFontOptions [] { options with normalize := some false }).normalize =
        some true := by
  intro options
  constructor <;> simp [resolveSVGFontOptions]

theorem containsRun_iff (n : List Char) : ∀ h : List Char,
    containsRun n h = true ↔ List.IsInfix n h := by
  intro h
  induction h with
  | nil => simp [containsRun, List.isEmpty_iff, List.infix_nil]
  | cons c t ih =>
    rw [containsRun, List.infix_cons_iff, Bool.or_eq_true, ih]
    constructor
    · rintro (hp | hi)
      · exact Or.inl (List.isPrefixOf_iff_prefix.mp hp)
      · exact Or.inr hi
    · rintro (hp | hi)
      · exact Or.inl (List.isPrefixOf_iff_prefix.mpr hp)
      · exact Or.inr hi

/-- A collection step on an `svg` node carrying no `unicode` attribute
allocates from the cursor, marks the icon auto, and advances the cursor to
the allocated point. -/
theorem processNode_auto_char (node : SVGNode) (path : String)
    (r : CompileIconFontResult) (h : node.name = "svg")
    (hu : node.attr.lookup "unicode" = none) :
    ∃ icon : SVGIcon,
      (processNode node path r).icons = r.icons ++ [icon] ∧
      icon.unicode = (getUniqueUnicode (some r.startUnicode) r.unicodes).1 ∧
      icon.autoUnicode = true ∧
      (processNode node path r).startUnicode = icon.unicode ∧
      (processNode node path r).unicodes = icon.unicode :: r.unicodes := by
  have hw := getUniqueUnicode_spec (some r.startUnicode) r.unicodes
  refine ⟨{ iconName := (getUnique ((node.attr.lookup "id").getD (getName path)) r.iconNames).1,
            className := (getUnique ((node.attr.lookup "class").getD
              (getUnique ((node.attr.lookup "id").getD (getName path)) r.iconNames).1)
              r.classNames).1,
            unicode := (getUniqueUnicode (some r.startUnicode) r.unicodes).1,
            autoUnicode := true,
            title := some ((node.attr.lookup "title").getD
              (getUnique ((node.attr.lookup "id").getD (getName path)) r.iconNames).1) },
    ?_, rfl, rfl, ?_, ?_⟩ <;>
    simp [processNode, h, hu, hw.2.2.2]

/-- A collection step on an `svg` node with an explicit `unicode` attribute
allocates from the parsed attribute value and leaves the cursor alone. -/
theorem processNode_explicit_char (node : SVGNode) (path : String)
    (r : CompileIconFontResult) (uAttr : String) (h : node.name = "svg")
    (hu : node.attr.lookup "unicode" = some uAttr) :
    ∃ icon : SVGIcon,
      (processNode node path r).icons = r.icons ++ [icon] ∧
      icon.unicode = (getUniqueUnicode (parseUnicodeAttr uAttr) r.unicodes).1 ∧
      icon.autoUnicode = false ∧
      (processNode node path r).startUnicode = r.startUnicode ∧
      (processNode node path r).unicodes = icon.unicode :: r.unicodes := by
  have hw := getUniqueUnicode_spec (parseUnicodeAttr uAttr) r.unicodes
  refine ⟨{ iconName := (getUnique ((node.attr.lookup "id").getD (getName path)) r.iconNames).1,
            className := (getUnique ((node.attr.lookup "class").getD
              (getUnique ((node.attr.lookup "id").getD (getName path)) r.iconNames).1)
              r.classNames).1,
            unicode := (getUniqueUnicode (parseUnicodeAttr uAttr) r.unicodes).1,
            autoUnicode := false,
            title := some ((node.attr.lookup "title").getD
              (getUnique ((node.attr.lookup "id").getD (getName path)) r.iconNames).1) },
    ?_, rfl, rfl, ?_, ?_⟩ <;>
    simp [processNode, h, hu, hw.2.2.2]

/-- Any icon a collection step adds (it was not in the list before the step)
carries a code point that was unregistered before the step. -/
theorem processNode_new_icon_fresh (node : SVGNode) (path : String)
    (r : CompileIconFontResult) :
    ∀ icon ∈ (processNode node path r).icons, icon ∉ r.icons →
      icon.unicode ∉ r.unicodes := by
  intro icon hmem hnot
  by_cases h : node.name = "svg"
  · obtain ⟨i2, hic, _, _, hu, _, _, _, _⟩ := processNode_svg_char node path r h
    rw [hic] at hmem
    rcases List.mem_append.mp hmem with hold | hnew
    · exact absurd hold hnot
    · rw [List.mem_singleton.mp hnew]
      exact hu
  · rw [processNode_not_svg node path r h] at hmem
    exact absurd hmem hnot

/-- C5: compiling the manifest `<iconfont><svg name="a"/><svg name="a"/></iconfont>`
(file `icon.iconfont`).  The claim (and the README, which documents the `name`
attribute as the icon name) expects iconName `a` and `a-2`; the code reads
only the `id` attribute, so both icons fall back to the manifest filename and
get `icon` and `icon-2`.  The code points `0xea01`, `0xea02` and
`autoUnicode = true` behave exactly as claimed. -/
theorem C5_duplicate_name_eval :
    (collectNodes
        [({ name := "svg", attr := [("name", "a")] }, "icon.iconfont"),
          ({ name := "svg", attr := [("name", "a")] }, "icon.iconfont")]
        (emptyResult 0xea01)).icons.map SVGIcon.iconName = ["icon", "icon-2"] ∧
    (collectNodes
        [({ name := "svg", attr := [("name", "a")] }, "icon.iconfont"),
          ({ name := "svg", attr := [("name", "a")] }, "icon.iconfont")]
        (emptyResult 0xea01)).icons.map SVGIcon.unicode = [0xea01, 0xea02] ∧
    (collectNodes
        [({ name := "svg", attr := [("name", "a")] }, "icon.iconfont"),
          ({ name := "svg", attr := [("name", "a")] }, "icon.iconfont")]
        (emptyResult 0xea01)).icons.map SVGIcon.autoUnicode = [true, true] ∧
    (collectNodes
        [({ name := "svg", attr := [("name", "a")] }, "icon.iconfont"),
          ({ name := "svg", attr := [("name", "a")] }, "icon.iconfont")]
        (emptyResult 0xea01)).icons.map SVGIcon.iconName ≠ ["a", "a-2"] := by
  refine ⟨by decide, by decide, by decide, by decide⟩

/-- C6 (counterexample): for the single icon `warn`/`0xea01` and an empty
configured class prefix, the generated stylesheet's per-icon rule uses the
single-colon `:before` form, and the double-colon rule the claim quotes,
`.warn::before { content: "\ea01"; }`, occurs nowhere in the stylesheet. -/
theorem C6_double_colon_counterexample :
    cssRule "" { iconName := "warn", className := "warn", unicode := 0xea01,
                 autoUnicode := true, title := none } ≠
      ".warn::before \x7b content: \"\\ea01\"; \x7d" ∧
    ¬ List.IsInfix ".warn::before \x7b content: \"\\ea01\"; \x7d".data
      (generateCSS
        [{ iconName := "warn", className := "warn", unicode := 0xea01,
           autoUnicode := true, title := none }]
        { classNamePrefix := some "" }).data := by
  refine ⟨by decide, ?_⟩
  rw [← containsRun_iff]
  decide

/-- C6 (amended): for every icon with className `warn` and unicode `0xea01`
and an empty configured class prefix, the stylesheet's per-icon section is
exactly the rule `.warn:before { content: "\ea01"; }` (single-colon `:before`;
no prefix and no hyphen when the prefix is empty), and that rule occurs in
the generated stylesheet. -/
theorem C6_empty_prefix_rule (icon : SVGIcon) (options : IconFontOptions)
    (hc : icon.className = "warn") (hu : icon.unicode = 0xea01) :
    cssRule "" icon = ".warn:before \x7b content: \"\\ea01\"; \x7d" ∧
    generateCSS [icon] { options with classNamePrefix := some "" } =
      cssHeader "" (getName ((options.fileName).getD ((options.fontName).getD "icon")))
        ((options.hash).getD (natToString 1)) ++ cssRule "" icon ∧
    List.IsInfix ".warn:before \x7b content: \"\\ea01\"; \x7d".data
      (generateCSS [icon] { options with classNamePrefix := some "" }).data := by
  obtain ⟨nm, cn, uc, au, tt⟩ := icon
  simp only at hc hu
  subst hc
  subst hu
  have h1 : cssRule "" ⟨nm, "warn", 0xea01, au, tt⟩ =
      cssRule "" ⟨"warn", "warn", 0xea01, true, none⟩ := rfl
  have h2 : cssRule "" (⟨"warn", "warn", 0xea01, true, none⟩ : SVGIcon) =
      ".warn:before \x7b content: \"\\ea01\"; \x7d" := by decide
  have h3 : generateCSS [(⟨nm, "warn", 0xea01, au, tt⟩ : SVGIcon)]
      { options with classNamePrefix := some "" } =
      cssHeader "" (getName ((options.fileName).getD ((options.fontName).getD "icon")))
        ((options.hash).getD (natToString 1)) ++
        cssRule "" ⟨nm, "warn", 0xea01, au, tt⟩ := rfl
  refine ⟨h1.trans h2, h3, ?_⟩
  rw [h3, h1, h2]
  refine ⟨(cssHeader "" (getName ((options.fileName).getD ((options.fontName).getD "icon")))
    ((options.hash).getD (natToString 1))).data, [], ?_⟩
  simp

/-- C6 (witness): the amended rule shape at the concrete icon `warn`/`0xea01`
with every other option absent. -/
theorem C6_empty_prefix_rule_witness :
    cssRule "" { iconName := "warn", className := "warn", unicode := 0xea01,
                 autoUnicode := true, title := none } =
      ".warn:before \x7b content: \"\\ea01\"; \x7d" ∧
    generateCSS
        [{ iconName := "warn", className := "warn", unicode := 0xea01,
           autoUnicode := true, title := none }]
        { classNamePrefix := some "" } =
      cssHeader "" "icon" "1" ++
        cssRule "" { iconName := "warn", className := "warn", unicode := 0xea01,
                     autoUnicode := true, title := none } ∧
    List.IsInfix ".warn:before \x7b content: \"\\ea01\"; \x7d".data
      (generateCSS
        [{ iconName := "warn", className := "warn", unicode := 0xea01,
           autoUnicode := true, title := none }]
        { classNamePrefix := some "" }).data :=
  C6_empty_prefix_rule
    { iconName := "warn", className := "warn", unicode := 0xea01,
      autoUnicode := true, title := none } {} rfl rfl

/-- C7: a newly collected icon never reuses a previously registered code
point; in particular an auto-allocated icon that follows an icon with
explicit `unicode="0x41"` does not receive `0x41`, and when the cursor has
already reached `0x41` (and `0x41` is registered, `0x42` free) the auto icon
receives `0x42` and the cursor advances to it. -/
theorem C7_auto_skips_registered :
    (∀ (node : SVGNode) (path : String) (r : CompileIconFontResult),
      ∀ icon ∈ (processNode node path r).icons, icon ∉ r.icons →
        icon.unicode ∉ r.unicodes) ∧
    (∀ (r : CompileIconFontResult) (path : String),
      r.startUnicode = 0x41 → 0x41 ∈ r.unicodes → 0x42 ∉ r.unicodes →
      ∃ icon : SVGIcon,
        (processNode { name := "svg", attr := [] } path r).icons = r.icons ++ [icon] ∧
        icon.unicode = 0x42 ∧ icon.autoUnicode = true ∧
        (processNode { name := "svg", attr := [] } path r).startUnicode = 0x42) ∧
    (∀ (r : CompileIconFontResult) (p₁ p₂ : String),
      0x41 ∉ r.unicodes →
      0x41 ∈ (processNode { name := "svg", attr := [("unicode", "0x41")] } p₁ r).unicodes ∧
      ∀ icon ∈ (processNode { name := "svg", attr := [] } p₂
          (processNode { name := "svg", attr := [("unicode", "0x41")] } p₁ r)).icons,
        icon ∉ (processNode { name := "svg", attr := [("unicode", "0x41")] } p₁ r).icons →
        icon.unicode ≠ 0x41) := by
  refine ⟨processNode_new_icon_fresh, ?_, ?_⟩
  · intro r path h1 h2 h3
    obtain ⟨icon, hic, huval, hauto, hsu, _⟩ :=
      processNode_auto_char { name := "svg", attr := [] } path r rfl rfl
    have hval : icon.unicode = 0x42 := by
      rw [huval, h1]
      exact getUniqueUnicode_eq_succ 0x41 r.unicodes h2 h3
    exact ⟨icon, hic, hval, hauto, by rw [hsu, hval]⟩
  · intro r p₁ p₂ h41
    obtain ⟨icon, _, huval, _, _, hus⟩ :=
      processNode_explicit_char { name := "svg", attr := [("unicode", "0x41")] } p₁ r
        "0x41" rfl rfl
    have hpu : parseUnicodeAttr "0x41" = some 0x41 := by decide
    have hval : icon.unicode = 0x41 := by
      rw [huval, hpu]
      exact getUniqueUnicode_eq_start (some 0x41) r.unicodes h41
    constructor
    · rw [hus, hval]
      exact List.mem_cons_self _ _
    · intro i hi hnot
      have hfresh := processNode_new_icon_fresh { name := "svg", attr := [] } p₂
        (processNode { name := "svg", attr := [("unicode", "0x41")] } p₁ r) i hi hnot
      intro hcontra
      apply hfresh
      rw [hcontra, hus, hval]
      exact List.mem_cons_self _ _

/-- C7 (witness): the cursor-at-`0x41` scenario at a concrete registry
state, and the explicit-then-auto sequence from the empty registry. -/
theorem C7_auto_skips_registered_witness :
    (∃ icon : SVGIcon,
      (processNode { name := "svg", attr := [] } "w.iconfont"
          { icons := [], iconNames := [], classNames := [], unicodes := [0x41],
            startUnicode := 0x41 }).icons =
        [] ++ [icon] ∧
      icon.unicode = 0x42 ∧ icon.autoUnicode = true ∧
      (processNode { name := "svg", attr := [] } "w.iconfont"
          { icons := [], iconNames := [], classNames := [], unicodes := [0x41],
            startUnicode := 0x41 }).startUnicode = 0x42) ∧
    (0x41 ∈ (processNode { name := "svg", attr := [("unicode", "0x41")] } "w.iconfont"
        (emptyResult 0x41)).unicodes) :=
  ⟨(C7_auto_skips_registered.2.1
      { icons := [], iconNames := [], classNames := [], unicodes := [0x41],
        startUnicode := 0x41 }
      "w.iconfont" rfl (by decide) (by decide)),
   (C7_auto_skips_registered.2.2 (emptyResult 0x41) "w.iconfont" "w.iconfont"
      (by decide)).1⟩

/-- C9 (counterexample): with no `fixedWidth` attribute in the manifest (and
no caller override), the `fixedWidth` option stays unset through attribute
parsing and through the font-step option resolution — it does not resolve to
`true`.  (`centerHorizontally` and `normalize` do default to `true`;
`fixedWidth`'s documented downstream default is `false`.) -/
theorem C9_fixedWidth_counterexample :
    (optionsFromAttrs [] "icon.iconfont" 0xea01).fixedWidth = none ∧
    (resolveSVGFontOptions
        [{ iconName := "a", className := "a", unicode := 0xea01,
           autoUnicode := true, title := none }]
        (optionsFromAttrs [] "icon.iconfont" 0xea01)).fixedWidth ≠ some true := by
  refine ⟨rfl, by decide⟩

/-- C9 (amended): a boolean manifest attribute parses to `false` exactly when
the string is the literal `"false"` and to `true` for any other present
string; an absent `centerHorizontally` or `normalize` resolves to `true` via
the in-core defaults, but an absent `fixedWidth` has no in-core default and
stays unset (the downstream codec default is `false`). -/
theorem C9_boolean_attrs :
    (∀ v : String, parseBoolean (some v) = some false ↔ v = "false") ∧
    (∀ v : String, parseBoolean (some v) = some true ↔ v ≠ "false") ∧
    parseBoolean none = none ∧
    (∀ (attrs : List (String × String)) (path : String) (su : Nat),
      (optionsFromAttrs attrs path su).fixedWidth =
        parseBoolean (attrs.lookup "fixedWidth") ∧
      (optionsFromAttrs attrs path su).centerHorizontally =
        parseBoolean (attrs.lookup "centerHorizontally") ∧
      (optionsFromAttrs attrs path su).normalize =
        parseBoolean (attrs.lookup "normalize")) ∧
    (∀ (options : IconFontOptions) (icons : List SVGIcon),
      (resolveSVGFontOptions icons
        { options with centerHorizontally := none }).centerHorizontally = some true ∧
      (resolveSVGFontOptions icons { options with normalize := none }).normalize =
        some true ∧
      (resolveSVGFontOptions icons { options with fixedWidth := none }).fixedWidth =
        none) := by
  refine ⟨?_, ?_, rfl, fun attrs path su => ⟨rfl, rfl, rfl⟩, ?_⟩
  · intro v
    simp [parseBoolean]
  · intro v
    simp [parseBoolean]
  · intro options icons
    by_cases hi : icons.length = 0 <;>
      simp [resolveSVGFontOptions, hi]

end IconFont
